import Mathlib

/-!
Verification of the flagsmith feature-flag backend (src/) against its
natural-language specification.

The development shallowly embeds the Django model / serializer / view code
under `src/src/` into Lean:

* Python's dynamically typed scalar values become the inductive `PyVal`;
  Python's `type(v).__name__` becomes `PyVal.typeName`.
* Database tables become lists of row structures; `objects.create`,
  `objects.get_or_create`, `objects.filter(...).delete()` and `save` become
  explicit functions on those lists.  Uniqueness constraints
  (`unique_together`) are enforced as the database enforces them: a plain
  INSERT that fails with `DbError.uniqueViolation` (the database
  `IntegrityError`) only on a genuine conflict, where nullable constrained
  columns compare with SQL semantics — NULL is distinct from everything,
  including NULL, so a row with a NULL constrained column never conflicts.
* Fallible endpoints return `Except`/sum-typed results.

Where a claim depends on repository code that is not part of `src/`
(the `environments/models.py` Trait helpers, the SDK flag-resolution view),
the corresponding definition is modelled from the specification and is
marked `Modelled from the spec:` in its doc comment.  Everything else is a
direct transcription of the source.
-/

namespace Flagsmith

/-- Python scalar values as they appear in this code base (Python 2 era:
textual data is `unicode`).  `floatLit` carries the literal only; no float
arithmetic is modelled or needed. -/
inductive PyVal where
  | bool (b : Bool)
  | int (n : Int)
  | str (s : String)
  | floatLit (repr : String)
  | none
deriving DecidableEq, Repr

/-- Python's `type(v).__name__` for the values of `PyVal` (Python 2: the
string type used throughout the code base is `unicode`). -/
def PyVal.typeName : PyVal → String
  | .bool _ => "bool"
  | .int _ => "int"
  | .str _ => "unicode"
  | .floatLit _ => "float"
  | .none => "NoneType"

/- Feature state types (features/models.py). -/
def FLAG : String := "FLAG"
def CONFIG : String := "CONFIG"

/- Feature state value types (features/models.py); the same constants are
exported by environments/models.py for trait value types. -/
def INTEGER : String := "int"
def STRING : String := "unicode"
def BOOLEAN : String := "bool"

/-- A row of the Feature table (features/models.py, class Feature): a name,
an owning project and a nullable textual `initial_value`.  (The source model
has no default-enabled column.) -/
structure FeatureRow where
  id : Nat
  project : Nat
  name : String
  initial_value : Option String
deriving DecidableEq, Repr

/-- A row of the FeatureState table (features/models.py, class FeatureState).
`environment` and `identity` are nullable foreign keys, `enabled` defaults to
`False` and `type` defaults to `FLAG`. -/
structure FeatureStateRow where
  id : Nat
  feature : Nat
  environment : Option Nat
  identity : Option Nat
  enabled : Bool
  type : String
deriving DecidableEq, Repr

/-- A row of the FeatureStateValue table (features/models.py, class
FeatureStateValue): one-to-one with FeatureState, a nullable `type` tag
defaulting to `STRING`, and three nullable payload columns. -/
structure FeatureStateValueRow where
  feature_state : Nat
  type : Option String
  boolean_value : Option Bool
  integer_value : Option Int
  string_value : Option String
deriving DecidableEq, Repr

/-- The slice of the database the feature models touch. -/
structure FeatureDb where
  feature_states : List FeatureStateRow
  feature_state_values : List FeatureStateValueRow
  next_fs_id : Nat
deriving DecidableEq, Repr

/-- Errors surfaced by the persistence layer. -/
inductive DbError where
  | uniqueViolation
deriving DecidableEq, Repr

/-- SQL equality on a nullable column: NULL compares unequal to everything,
including another NULL, so a multi-column unique constraint never fires on
a row whose constrained column is NULL. -/
def sqlEq (a b : Option Nat) : Bool :=
  match a, b with
  | Option.some x, Option.some y => x == y
  | _, _ => false

/-- The `unique_together = ("feature", "environment", "identity")` constraint
of FeatureState.Meta as the database enforces it: a new row with this scope
triple conflicts with a stored row only under SQL comparison of the nullable
`environment` and `identity` columns — in particular a NULL `identity`
never conflicts with anything, NULL included. -/
def featureStateExists (db : FeatureDb) (feature : Nat) (environment : Option Nat)
    (identity : Option Nat) : Bool :=
  db.feature_states.any fun fs =>
    fs.feature == feature && sqlEq fs.environment environment && sqlEq fs.identity identity

/-- `FeatureState.save` (features/models.py lines 84-90): after the row is
written, a default FeatureStateValue is created for it (a freshly created
state never has one), holding the feature's `initial_value` in
`string_value` with the column-default type `STRING`. -/
def featureStateSaveHook (db : FeatureDb) (fsId : Nat) (feature : FeatureRow) : FeatureDb :=
  if db.feature_state_values.any (fun v => v.feature_state == fsId) then db
  else
    { db with
      feature_state_values :=
        db.feature_state_values ++
          [⟨fsId, Option.some STRING, Option.none, Option.none, feature.initial_value⟩] }

/-- `FeatureState.objects.create(feature=..., environment=..., identity=None,
enabled=False)` as issued by `Feature.save`: a plain INSERT — Django's
`create` performs no application-level unique validation — which fails with
the database integrity error only when the `(feature, environment,
identity)` triple genuinely conflicts under SQL NULL semantics; on success
the row is inserted and `FeatureState.save`'s post-save hook runs.  The
NULL-identity rows `Feature.save` inserts never conflict, so duplicate
environment-default states insert silently. -/
def featureStateCreate (db : FeatureDb) (feature : FeatureRow) (environment : Option Nat)
    (identity : Option Nat) (enabled : Bool) : Except DbError FeatureDb :=
  if featureStateExists db feature.id environment identity then
    .error .uniqueViolation
  else
    let row : FeatureStateRow := ⟨db.next_fs_id, feature.id, environment, identity, enabled, FLAG⟩
    let db1 : FeatureDb :=
      { db with feature_states := db.feature_states ++ [row], next_fs_id := db.next_fs_id + 1 }
    .ok (featureStateSaveHook db1 row.id feature)

/-- `Feature.save` (features/models.py lines 32-42): after the feature row is
written, a FeatureState is created for every environment of the feature's
project, with `identity=None` and `enabled=False` — unconditionally, on every
save.  The first failing insert aborts the loop with its error. -/
def featureSave (feature : FeatureRow) (environments : List Nat) (db : FeatureDb) :
    Except DbError FeatureDb :=
  match environments with
  | [] => .ok db
  | env :: rest =>
      match featureStateCreate db feature (Option.some env) Option.none false with
      | .error e => .error e
      | .ok db1 => featureSave feature rest db1

/-- `FeatureState.get_feature_state_value` (features/models.py lines 69-82):
look up the one-to-one FeatureStateValue (absent ⇒ `None`), then return the
payload column selected by its type tag, or `None` for an unrecognised tag. -/
def get_feature_state_value (db : FeatureDb) (fs : FeatureStateRow) : Option PyVal :=
  match db.feature_state_values.find? (fun v => v.feature_state == fs.id) with
  | Option.none => Option.none
  | Option.some v =>
      if v.type == Option.some INTEGER then v.integer_value.map PyVal.int
      else if v.type == Option.some STRING then v.string_value.map PyVal.str
      else if v.type == Option.some BOOLEAN then v.boolean_value.map PyVal.bool
      else Option.none

/-- The dictionary built by
`FeatureState.generate_feature_state_value_data` (features/models.py lines
92-112): a type tag and the raw value placed in the matching payload slot. -/
structure FSVData where
  type : String
  integer_value : Option PyVal
  boolean_value : Option PyVal
  string_value : Option PyVal
  feature_state : Nat
deriving DecidableEq, Repr

/-- `FeatureState.generate_feature_state_value_data` (features/models.py
lines 92-112): branch on `type(value).__name__` — `"int"` yields an
INTEGER-tagged dict, `"bool"` a BOOLEAN-tagged one, and anything else
defaults to STRING with the raw value stored in `string_value`. -/
def generate_feature_state_value_data (fsId : Nat) (value : PyVal) : FSVData :=
  let fsv_type := value.typeName
  if fsv_type == INTEGER then
    ⟨INTEGER, Option.some value, Option.none, Option.none, fsId⟩
  else if fsv_type == BOOLEAN then
    ⟨BOOLEAN, Option.none, Option.some value, Option.none, fsId⟩
  else
    ⟨STRING, Option.none, Option.none, Option.some value, fsId⟩

/-!
Trait store.  The Trait model itself lives in environments/models.py, which
is not part of src/; its columns are reconstructed from their uses in
src/src/environments/serializers.py, views.py and the tests
(`trait_key`, `value_type`, `integer_value`, `string_value`,
`boolean_value`).  All operations act on a single environment's trait
table; identities are keyed by their per-environment `identifier` string,
which the serializers resolve with `Identity.objects.get_or_create`.
-/

/-- A row of the Trait table, within one environment.  `identity` is the
owning identity's per-environment identifier string. -/
structure TraitRow where
  identity : String
  trait_key : String
  value_type : String
  integer_value : Option Int
  string_value : Option String
  boolean_value : Option Bool
deriving DecidableEq, Repr

/-- The dictionary produced by `Trait.generate_trait_value_data`: a
`value_type` tag together with the single payload key the dictionary
carries (the update path of CreateTraitSerializer setattrs exactly the keys
present in this dictionary). -/
inductive TraitPayloadField where
  | intF (v : Option Int)
  | strF (v : Option String)
  | boolF (v : Option Bool)
deriving DecidableEq, Repr

structure TraitValueData where
  value_type : String
  payload : TraitPayloadField
deriving DecidableEq, Repr

/-- Assign the fields of a trait-value dictionary onto a trait row
(`for key, value in self.trait_value_data.items(): setattr(instance, key,
value)` in CreateTraitSerializer.update): the tag and the one payload
column present in the dictionary are overwritten, the other payload columns
are left as they were. -/
def applyTraitValueData (t : TraitRow) (d : TraitValueData) : TraitRow :=
  let t1 := { t with value_type := d.value_type }
  match d.payload with
  | .intF v => { t1 with integer_value := v }
  | .strF v => { t1 with string_value := v }
  | .boolF v => { t1 with boolean_value := v }

/-- Modelled from the spec: `Trait.generate_trait_value_data` is defined in
environments/models.py, which is not under src/.  Per §4.1 the inference
mirrors `FeatureState.generate_feature_state_value_data`: native booleans
map to the Boolean tag, native integers to the Integer tag, and everything
else to the String tag. -/
def generate_trait_value_data (value : PyVal) : TraitValueData :=
  let n := value.typeName
  if n == INTEGER then
    ⟨INTEGER, .intF (match value with | .int k => Option.some k | _ => Option.none)⟩
  else if n == BOOLEAN then
    ⟨BOOLEAN, .boolF (match value with | .bool b => Option.some b | _ => Option.none)⟩
  else
    ⟨STRING, .strF (match value with | .str s => Option.some s | _ => Option.none)⟩

/-- `Trait.objects.get_or_create(trait_key=..., identity=..., defaults=d)`:
return the first row with the given key for the identity, or insert a fresh
row built from the defaults dictionary (column default for `value_type` is
`STRING`, as for FeatureStateValue.type).  The Bool records Django's
`created` flag. -/
def getOrCreateTrait (store : List TraitRow) (identity : String) (key : String)
    (defaults : TraitValueData) : List TraitRow × TraitRow × Bool :=
  match store.find? (fun t => t.identity == identity && t.trait_key == key) with
  | Option.some t => (store, t, false)
  | Option.none =>
      let base : TraitRow := ⟨identity, key, STRING, Option.none, Option.none, Option.none⟩
      let created := applyTraitValueData base defaults
      (store ++ [created], created, true)

/-- `instance.save()` on an existing trait row: the row for this
`(identity, trait_key)` pair is replaced by the updated instance. -/
def saveTrait (store : List TraitRow) (t : TraitRow) : List TraitRow :=
  store.map fun u => if u.identity == t.identity && u.trait_key == t.trait_key then t else u

/-- `CreateTraitSerializer.create` (environments/serializers.py lines
85-115): `get_or_create` with the inferred value data as defaults; when the
row already existed, `update` assigns the inferred value data onto it and
saves. -/
def createTrait (store : List TraitRow) (identity : String) (key : String)
    (rawValue : PyVal) : List TraitRow × TraitRow :=
  let trait_value_data := generate_trait_value_data rawValue
  match getOrCreateTrait store identity key trait_value_data with
  | (store1, trait, created) =>
      if created then (store1, trait)
      else
        let updated := applyTraitValueData trait trait_value_data
        (saveTrait store1 updated, updated)

/-- Errors surfaced by `IncrementTraitValueSerializer.create`: the explicit
`ValidationError('Trait is not an integer.')`, and the `TypeError` Python
would raise adding an integer to a null `integer_value`. -/
inductive IncrementError where
  | validationError
  | typeError
deriving DecidableEq, Repr

/-- `IncrementTraitValueSerializer.create` (environments/serializers.py
lines 131-158): `get_or_create` with defaults `{value_type: INTEGER,
integer_value: 0}`, reject with a validation error unless the row is
INTEGER-tagged, then add `increment_by` to `integer_value` in place and
save. -/
def incrementTraitValue (store : List TraitRow) (identity : String) (key : String)
    (increment_by : Int) : Except IncrementError (List TraitRow × TraitRow) :=
  match getOrCreateTrait store identity key ⟨INTEGER, .intF (Option.some 0)⟩ with
  | (store1, trait, _) =>
      if trait.value_type != INTEGER then .error .validationError
      else
        match trait.integer_value with
        | Option.none => .error .typeError
        | Option.some n =>
            let updated := { trait with integer_value := Option.some (n + increment_by) }
            .ok (saveTrait store1 updated, updated)

/-!
SDK bulk trait endpoint (`SDKTraits.bulk_create`, environments/views.py
lines 355-384).  Request items are JSON dictionaries
`{identity: {identifier}, trait_key, trait_value}`; a missing or blank
required field makes the item fail serializer validation.
-/

/-- One raw item of a bulk-trait request body.  `Option.none` in
`trait_value` covers both a JSON null and an absent key, matching
`trait.get('trait_value') is None`; `Option.none` in the other two fields
models an absent key. -/
structure RawTraitItem where
  identifier : Option String
  trait_key : Option String
  trait_value : Option PyVal
deriving DecidableEq, Repr

/-- Serializer validation of one (non-delete) item: the nested identity
identifier and the trait key are required, non-blank character fields. -/
def validTraitItem (it : RawTraitItem) : Bool :=
  (match it.identifier with | Option.some s => s != "" | Option.none => false) &&
  (match it.trait_key with | Option.some s => s != "" | Option.none => false)

/-- Does a null-valued request item's delete filter
`Q(trait_key=..., identity__identifier=...)` select this trait row? -/
def deleteMatches (it : RawTraitItem) (t : TraitRow) : Bool :=
  it.trait_key == Option.some t.trait_key && it.identifier == Option.some t.identity

/-- The deletions the bulk endpoint performs before validating the
remaining items: rows matched by any null-valued item are removed
(`Trait.objects.filter(delete_filter_query).delete()`; an empty filter
deletes nothing, which coincides with filtering by no disjunct). -/
def bulkApplyDeletes (store : List TraitRow) (items : List RawTraitItem) : List TraitRow :=
  let deletes := items.filter fun it => it.trait_value.isNone
  store.filter fun t => !(deletes.any fun it => deleteMatches it t)

/-- The result of the bulk endpoint: a 200 with the serialized upserted
traits, or a 400 when batch validation fails. -/
inductive BulkResponse where
  | ok (traits : List TraitRow)
  | badRequest
deriving DecidableEq, Repr

/-- `SDKTraits.bulk_create` (environments/views.py lines 355-384): split
the request into null-valued delete items and upsert items, apply the
deletions, then validate the upsert items as one list serializer —
`is_valid(raise_exception=True)` fails the whole batch if any item is
invalid — and only on full success upsert every item in order.  Returns
the response together with the resulting trait table. -/
def bulkCreate (store : List TraitRow) (items : List RawTraitItem) :
    BulkResponse × List TraitRow :=
  let upserts := items.filter fun it => it.trait_value.isSome
  let store1 := bulkApplyDeletes store items
  if upserts.all validTraitItem then
    let step := fun (acc : List TraitRow × List TraitRow) (it : RawTraitItem) =>
      let r := createTrait acc.1 (it.identifier.getD "") (it.trait_key.getD "")
          (it.trait_value.getD PyVal.none)
      (r.1, acc.2 ++ [r.2])
    let final := List.foldl step (store1, ([] : List TraitRow)) upserts
    (.ok final.2, final.1)
  else
    (.badRequest, store1)

/-!
Flag resolution.  The SDK flags endpoint (features/views.py) is not part of
src/ — only its tests are — so the resolution engine and the output
filtering policy are modelled from the specification (§4.4).
-/

/-- Modelled from the spec: the spec's Feature (§3) carries a
default-enabled flag; the source Feature model (features/models.py) has no
such column, so for stating the creation invariant we pair a source feature
row with the spec's flag. -/
structure SpecFeature where
  row : FeatureRow
  default_enabled : Bool
deriving DecidableEq, Repr

/-- An environment-default feature state as the resolution engine consumes
it: per feature, an enabled flag and a value. -/
structure EnvDefault where
  feature : Nat
  enabled : Bool
  value : PyVal
deriving DecidableEq, Repr

/-- A FeatureSegment whose segment has been evaluated against the request
identity's traits is identified to the engine by its `segment` id; the
override carries optional enabled/value plus a priority (§3). -/
structure FeatureSegmentRec where
  id : Nat
  feature : Nat
  segment : Nat
  priority : Nat
  enabled : Option Bool
  value : Option PyVal
deriving DecidableEq, Repr

/-- An identity-scoped FeatureState (§3): an override of enabled/value for
one (feature, identity) pair. -/
structure IdentityOverride where
  feature : Nat
  identity : Nat
  enabled : Bool
  value : PyVal
deriving DecidableEq, Repr

/-- One entry of the resolved output sequence (§6 output contract). -/
structure ResolvedEntry where
  feature : Nat
  enabled : Bool
  value : PyVal
  feature_segment_id : Option Nat
deriving DecidableEq, Repr

/-- Among the FeatureSegments for this feature whose segment matches the
identity's traits, the one with the lowest priority, ties broken by lowest
id (§4.4 step 2). -/
def bestSegmentOverride (feature : Nat) (featureSegments : List FeatureSegmentRec)
    (segmentMatches : Nat → Bool) : Option FeatureSegmentRec :=
  let cands := featureSegments.filter fun g => g.feature == feature && segmentMatches g.segment
  cands.foldl
    (fun best g =>
      match best with
      | Option.none => Option.some g
      | Option.some b =>
          if g.priority < b.priority || (g.priority == b.priority && g.id < b.id) then
            Option.some g
          else Option.some b)
    Option.none

/-- Modelled from the spec: resolution of a single feature (§4.4).  Step 1
takes the environment default as baseline; steps 2 (best-priority matching
segment override) and 3 (identity override, final precedence) only run when
an identity is present; with no identity they are skipped entirely and the
baseline is the result. -/
def resolveFeature (fs : EnvDefault) (identity : Option Nat)
    (featureSegments : List FeatureSegmentRec) (identityOverrides : List IdentityOverride)
    (segmentMatches : Nat → Bool) : ResolvedEntry :=
  let baseline : ResolvedEntry := ⟨fs.feature, fs.enabled, fs.value, Option.none⟩
  match identity with
  | Option.none => baseline
  | Option.some i =>
      let afterSegment :=
        match bestSegmentOverride fs.feature featureSegments segmentMatches with
        | Option.none => baseline
        | Option.some g =>
            ⟨fs.feature, g.enabled.getD baseline.enabled, g.value.getD baseline.value,
              Option.some g.id⟩
      match identityOverrides.find? (fun o => o.feature == fs.feature && o.identity == i) with
      | Option.none => afterSegment
      | Option.some o => ⟨fs.feature, o.enabled, o.value, afterSegment.feature_segment_id⟩

/-- Modelled from the spec: `resolve` (§4.4) — one resolved entry per
environment default, in order. -/
def resolve (defaults : List EnvDefault) (identity : Option Nat)
    (featureSegments : List FeatureSegmentRec) (identityOverrides : List IdentityOverride)
    (segmentMatches : Nat → Bool) : List ResolvedEntry :=
  defaults.map fun fs => resolveFeature fs identity featureSegments identityOverrides segmentMatches

/-- A resolved flag as the delivery layer emits it: the feature's kind
together with its resolved state. -/
structure EmittedFlag where
  feature : Nat
  kind : String
  enabled : Bool
  value : PyVal
deriving DecidableEq, Repr

/-- Modelled from the spec: the output filtering policy (§4.4) — when the
project enables hide-disabled-flags, entries whose feature kind is `FLAG`
and whose resolved enabled is false are excluded; nothing else is. -/
def hideDisabledFilter (hide_disabled_flags : Bool) (flags : List EmittedFlag) :
    List EmittedFlag :=
  if hide_disabled_flags then
    flags.filter fun f => !(f.kind == FLAG && f.enabled == false)
  else flags

/-- The Trait uniqueness invariant of the spec (§3): at most one trait row
per `(identity, trait_key)` pair. -/
def atMostOneTraitPer (store : List TraitRow) : Prop :=
  store.Pairwise fun a b => ¬(a.identity = b.identity ∧ a.trait_key = b.trait_key)

instance (store : List TraitRow) : Decidable (atMostOneTraitPer store) := by
  unfold atMostOneTraitPer; infer_instance

/-- Database id-freshness: every stored feature-state id (and every value
row's reference to one) is below the id counter, so a newly allocated id is
unused.  Any database built by the embedded create operations from an empty
one satisfies this. -/
def DbIdsFresh (db : FeatureDb) : Prop :=
  (∀ fs ∈ db.feature_states, fs.id < db.next_fs_id) ∧
  (∀ v ∈ db.feature_state_values, v.feature_state < db.next_fs_id)

instance (db : FeatureDb) : Decidable (DbIdsFresh db) := by
  unfold DbIdsFresh; infer_instance

/-- The feature-state rows `Feature.save` inserts, one per environment in
order, with consecutive ids starting at `startId`. -/
def createdStates (featureId : Nat) (envs : List Nat) (startId : Nat) :
    List FeatureStateRow :=
  match envs with
  | [] => []
  | e :: rest =>
      ⟨startId, featureId, Option.some e, Option.none, false, FLAG⟩ ::
        createdStates featureId rest (startId + 1)

/-- The feature-state-value rows created alongside `createdStates`. -/
def createdValues (initial : Option String) (envs : List Nat) (startId : Nat) :
    List FeatureStateValueRow :=
  match envs with
  | [] => []
  | _ :: rest =>
      ⟨startId, Option.some STRING, Option.none, Option.none, initial⟩ ::
        createdValues initial rest (startId + 1)

/-! Theorems. -/

/-- C3: the value-tag inference of
`FeatureState.generate_feature_state_value_data` maps a native boolean to
the Boolean tag, a native integer to the Integer tag, and every other input
— None, a float, and in particular a numeric string such as `"3"` — to the
String tag; a numeric string is never coerced to Integer. -/
theorem C3_value_tag_inference (fsId : Nat) :
    (∀ b : Bool, (generate_feature_state_value_data fsId (PyVal.bool b)).type = BOOLEAN) ∧
    (∀ n : Int, (generate_feature_state_value_data fsId (PyVal.int n)).type = INTEGER) ∧
    (∀ s : String, (generate_feature_state_value_data fsId (PyVal.str s)).type = STRING) ∧
    (∀ r : String, (generate_feature_state_value_data fsId (PyVal.floatLit r)).type = STRING) ∧
    (generate_feature_state_value_data fsId PyVal.none).type = STRING ∧
    (generate_feature_state_value_data fsId (PyVal.str "3")).type = STRING ∧
    (generate_feature_state_value_data fsId (PyVal.str "3")).integer_value = Option.none := by
  refine ⟨fun b => rfl, fun n => rfl, fun s => rfl, fun r => rfl, rfl, rfl, rfl⟩

/-- C10: `FeatureState.get_feature_state_value` is total and returns the
payload column selected by the value's type tag (`integer_value` for
INTEGER, `string_value` for STRING, `boolean_value` for BOOLEAN), and
returns `None` both when no FeatureStateValue row exists and when the tag
is not one of the three recognised tags. -/
theorem C10_get_feature_state_value_cases (db : FeatureDb) (fs : FeatureStateRow) :
    (db.feature_state_values.find? (fun v => v.feature_state == fs.id) = Option.none →
      get_feature_state_value db fs = Option.none) ∧
    (∀ v, db.feature_state_values.find? (fun v => v.feature_state == fs.id) = Option.some v →
      ((v.type = Option.some INTEGER →
          get_feature_state_value db fs = v.integer_value.map PyVal.int) ∧
       (v.type = Option.some STRING →
          get_feature_state_value db fs = v.string_value.map PyVal.str) ∧
       (v.type = Option.some BOOLEAN →
          get_feature_state_value db fs = v.boolean_value.map PyVal.bool) ∧
       (v.type ≠ Option.some INTEGER → v.type ≠ Option.some STRING →
          v.type ≠ Option.some BOOLEAN → get_feature_state_value db fs = Option.none))) := by
  constructor
  · intro h
    simp [get_feature_state_value, h]
  · intro v hv
    refine ⟨fun ht => ?_, fun ht => ?_, fun ht => ?_, fun h1 h2 h3 => ?_⟩
    · simp [get_feature_state_value, hv, ht]
    · simp [get_feature_state_value, hv, ht, STRING, INTEGER]
    · simp [get_feature_state_value, hv, ht, STRING, INTEGER, BOOLEAN]
    · simp [get_feature_state_value, hv, h1, h2, h3]

/-- C10 witness: a concrete INTEGER-tagged value row is read back as its
integer payload; with an empty value table the result is `None`. -/
theorem C10_witness :
    get_feature_state_value
        ⟨[], [⟨1, Option.some INTEGER, Option.none, Option.some 5, Option.none⟩], 0⟩
        ⟨1, 1, Option.none, Option.none, false, FLAG⟩ = Option.some (PyVal.int 5) ∧
    get_feature_state_value ⟨[], [], 0⟩ ⟨1, 1, Option.none, Option.none, false, FLAG⟩ =
      Option.none := by
  constructor
  · exact ((C10_get_feature_state_value_cases
        ⟨[], [⟨1, Option.some INTEGER, Option.none, Option.some 5, Option.none⟩], 0⟩
        ⟨1, 1, Option.none, Option.none, false, FLAG⟩).2
        ⟨1, Option.some INTEGER, Option.none, Option.some 5, Option.none⟩ (by rfl)).1 rfl
  · exact (C10_get_feature_state_value_cases ⟨[], [], 0⟩
        ⟨1, 1, Option.none, Option.none, false, FLAG⟩).1 rfl

/-- C6: with no identity supplied, `resolve` returns exactly the
environment-default state for every feature, unmodified by any segment
override or identity override present in the input. -/
theorem C6_no_identity_returns_defaults (defaults : List EnvDefault)
    (featureSegments : List FeatureSegmentRec) (identityOverrides : List IdentityOverride)
    (segmentMatches : Nat → Bool) :
    resolve defaults Option.none featureSegments identityOverrides segmentMatches =
      defaults.map fun fs => ⟨fs.feature, fs.enabled, fs.value, Option.none⟩ := by
  simp [resolve, resolveFeature]

/-- C7: with hide-disabled-flags on, the emitted sequence keeps exactly the
entries that are not (kind = FLAG and enabled = false); in particular a
CONFIG-kind entry is never filtered out, whatever its enabled state. -/
theorem C7_hide_disabled_filter_policy (flags : List EmittedFlag) (f : EmittedFlag) :
    (f ∈ hideDisabledFilter true flags ↔
      f ∈ flags ∧ ¬(f.kind = FLAG ∧ f.enabled = false)) ∧
    (f.kind = CONFIG → (f ∈ hideDisabledFilter true flags ↔ f ∈ flags)) := by
  have hmem : f ∈ hideDisabledFilter true flags ↔
      f ∈ flags ∧ ¬(f.kind = FLAG ∧ f.enabled = false) := by
    simp [hideDisabledFilter, List.mem_filter]
    tauto
  refine ⟨hmem, fun hconf => ?_⟩
  rw [hmem]
  constructor
  · exact fun h => h.1
  · intro h
    refine ⟨h, ?_⟩
    rintro ⟨hk, -⟩
    rw [hconf] at hk
    exact absurd hk (by decide)

/-- C7 witness: a disabled CONFIG entry survives the filter. -/
theorem C7_witness :
    (⟨1, CONFIG, false, PyVal.str "v"⟩ : EmittedFlag) ∈
      hideDisabledFilter true [⟨1, CONFIG, false, PyVal.str "v"⟩] :=
  ((C7_hide_disabled_filter_policy [⟨1, CONFIG, false, PyVal.str "v"⟩]
      ⟨1, CONFIG, false, PyVal.str "v"⟩).2 rfl).mpr (by simp)

/-- Assigning trait-value data never changes the key columns of a row. -/
lemma applyTraitValueData_keys (t : TraitRow) (d : TraitValueData) :
    (applyTraitValueData t d).identity = t.identity ∧
    (applyTraitValueData t d).trait_key = t.trait_key := by
  cases d with
  | mk vt p => cases p <;> simp [applyTraitValueData]

/-- Saving a trait row leaves a store untouched when no row of the store
has the saved row's key pair. -/
lemma saveTrait_no_match (store : List TraitRow) (t : TraitRow)
    (h : ∀ u ∈ store, ¬(u.identity = t.identity ∧ u.trait_key = t.trait_key)) :
    saveTrait store t = store := by
  induction store with
  | nil => rfl
  | cons u rest ih =>
      have hu := h u (by simp)
      have hr : ∀ x ∈ rest, ¬(x.identity = t.identity ∧ x.trait_key = t.trait_key) :=
        fun x hx => h x (by simp [hx])
      have htail := ih hr
      simp only [saveTrait, List.map_cons] at htail ⊢
      rw [if_neg (by simpa using hu), htail]

/-- `get_or_create` when the row is absent: the defaults are materialised
onto a fresh row which is appended to the table. -/
lemma getOrCreateTrait_none (store : List TraitRow) (identity key : String)
    (d : TraitValueData)
    (h : store.find? (fun u => u.identity == identity && u.trait_key == key) = Option.none) :
    getOrCreateTrait store identity key d =
      (store ++ [applyTraitValueData ⟨identity, key, STRING, Option.none, Option.none,
          Option.none⟩ d],
       applyTraitValueData ⟨identity, key, STRING, Option.none, Option.none, Option.none⟩ d,
       true) := by
  simp [getOrCreateTrait, h]

/-- `get_or_create` when the row is present: the table is untouched and the
found row is returned. -/
lemma getOrCreateTrait_some (store : List TraitRow) (identity key : String)
    (d : TraitValueData) (t : TraitRow)
    (h : store.find? (fun u => u.identity == identity && u.trait_key == key) = Option.some t) :
    getOrCreateTrait store identity key d = (store, t, false) := by
  simp [getOrCreateTrait, h]

/-- C2: `IncrementTraitValueSerializer.create` — with no existing trait for
the (identity, key) pair it creates an INTEGER-tagged trait whose value is
the delta; with an existing INTEGER-tagged trait it adds the delta to the
stored value in place; with an existing trait of any other tag it rejects
the request with the validation error. -/
theorem C2_increment_semantics (store : List TraitRow) (identity key : String) (delta : Int) :
    (store.find? (fun u => u.identity == identity && u.trait_key == key) = Option.none →
      incrementTraitValue store identity key delta =
        .ok (store ++ [⟨identity, key, INTEGER, Option.some delta, Option.none, Option.none⟩],
             ⟨identity, key, INTEGER, Option.some delta, Option.none, Option.none⟩)) ∧
    (∀ t n, store.find? (fun u => u.identity == identity && u.trait_key == key) = Option.some t →
      t.value_type = INTEGER → t.integer_value = Option.some n →
      incrementTraitValue store identity key delta =
        .ok (saveTrait store { t with integer_value := Option.some (n + delta) },
             { t with integer_value := Option.some (n + delta) })) ∧
    (∀ t, store.find? (fun u => u.identity == identity && u.trait_key == key) = Option.some t →
      t.value_type ≠ INTEGER →
      incrementTraitValue store identity key delta = .error .validationError) := by
  refine ⟨fun h => ?_, fun t n hfind ht hn => ?_, fun t hfind ht => ?_⟩
  · have hall : ∀ u ∈ store, ¬(u.identity = identity ∧ u.trait_key = key) := by
      intro u hu
      have := List.find?_eq_none.mp h u hu
      simpa using this
    have hcreated : applyTraitValueData
        ⟨identity, key, STRING, Option.none, Option.none, Option.none⟩
        ⟨INTEGER, .intF (Option.some 0)⟩ =
        ⟨identity, key, INTEGER, Option.some 0, Option.none, Option.none⟩ := rfl
    rw [incrementTraitValue, getOrCreateTrait_none store identity key _ h, hcreated]
    have hskip : saveTrait store
        ⟨identity, key, INTEGER, Option.some (0 + delta), Option.none, Option.none⟩ = store :=
      saveTrait_no_match store _ (fun u hu => hall u hu)
    simp only [bne_self_eq_false, Bool.false_eq_true, if_false]
    rw [saveTrait, List.map_append]
    simp only [saveTrait] at hskip
    rw [hskip]
    simp [zero_add]
  · rw [incrementTraitValue, getOrCreateTrait_some store identity key _ t hfind]
    simp [ht, hn]
  · rw [incrementTraitValue, getOrCreateTrait_some store identity key _ t hfind]
    have hb : (t.value_type != INTEGER) = true := by
      simpa using ht
    simp [hb]

/-- C2 witness: incrementing a non-existent "counter" by 2 creates an
INTEGER trait with value 2; incrementing it again by -5 yields -3; and
incrementing a STRING-tagged trait is rejected. -/
theorem C2_witness :
    incrementTraitValue [] "u" "counter" 2 =
      .ok ([⟨"u", "counter", INTEGER, Option.some 2, Option.none, Option.none⟩],
           ⟨"u", "counter", INTEGER, Option.some 2, Option.none, Option.none⟩) ∧
    incrementTraitValue [⟨"u", "counter", INTEGER, Option.some 2, Option.none, Option.none⟩]
        "u" "counter" (-5) =
      .ok ([⟨"u", "counter", INTEGER, Option.some (-3), Option.none, Option.none⟩],
           ⟨"u", "counter", INTEGER, Option.some (-3), Option.none, Option.none⟩) ∧
    incrementTraitValue [⟨"u", "counter", STRING, Option.none, Option.some "x", Option.none⟩]
        "u" "counter" 2 = .error .validationError := by
  refine ⟨?_, ?_, ?_⟩
  · simpa using (C2_increment_semantics [] "u" "counter" 2).1 (by rfl)
  · have h := (C2_increment_semantics
        [⟨"u", "counter", INTEGER, Option.some 2, Option.none, Option.none⟩] "u" "counter"
        (-5)).2.1 ⟨"u", "counter", INTEGER, Option.some 2, Option.none, Option.none⟩ 2
        (by rfl) rfl rfl
    have he : (2 + (-5) : Int) = -3 := by decide
    simpa [saveTrait, he] using h
  · exact (C2_increment_semantics
        [⟨"u", "counter", STRING, Option.none, Option.some "x", Option.none⟩] "u" "counter"
        2).2.2 ⟨"u", "counter", STRING, Option.none, Option.some "x", Option.none⟩ (by rfl)
        (by decide)

/-- Replacing the saved row in a store never changes an element's key
columns: an element is only replaced when its keys already equal the saved
row's. -/
lemma saveTrait_elem_keys (u t : TraitRow) :
    ((if u.identity == t.identity && u.trait_key == t.trait_key then t else u).identity
      = u.identity) ∧
    ((if u.identity == t.identity && u.trait_key == t.trait_key then t else u).trait_key
      = u.trait_key) := by
  by_cases hc : (u.identity == t.identity && u.trait_key == t.trait_key) = true
  · have h1 : u.identity = t.identity := by
      have := (Bool.and_eq_true _ _).mp hc
      exact beq_iff_eq.mp this.1
    have h2 : u.trait_key = t.trait_key := by
      have := (Bool.and_eq_true _ _).mp hc
      exact beq_iff_eq.mp this.2
    simp [hc, h1, h2]
  · simp [hc]

/-- C8: `CreateTraitSerializer.create` preserves the at-most-one-trait-per
(identity, key) invariant, and when a trait with the key already exists it
updates that row in place — the store keeps the same length and only the
matching row changes, to the existing row overwritten with the inferred
value data. -/
theorem C8_trait_upsert_unique (store : List TraitRow) (identity key : String) (v : PyVal) :
    (atMostOneTraitPer store → atMostOneTraitPer (createTrait store identity key v).1) ∧
    (∀ t, store.find? (fun u => u.identity == identity && u.trait_key == key) = Option.some t →
      (createTrait store identity key v).1 =
        store.map (fun u => if u.identity == t.identity && u.trait_key == t.trait_key then
            applyTraitValueData t (generate_trait_value_data v) else u) ∧
      (createTrait store identity key v).1.length = store.length) := by
  constructor
  · intro hinv
    cases hfind : store.find? (fun u => u.identity == identity && u.trait_key == key) with
    | none =>
        have hred : (createTrait store identity key v).1 =
            store ++ [applyTraitValueData ⟨identity, key, STRING, Option.none, Option.none,
              Option.none⟩ (generate_trait_value_data v)] := by
          rw [createTrait, getOrCreateTrait_none store identity key _ hfind]
          rfl
        rw [hred, atMostOneTraitPer, List.pairwise_append]
        refine ⟨hinv, by simp, ?_⟩
        intro a ha b hb
        have hbkeys := applyTraitValueData_keys
          ⟨identity, key, STRING, Option.none, Option.none, Option.none⟩
          (generate_trait_value_data v)
        have hb' : b = applyTraitValueData
            ⟨identity, key, STRING, Option.none, Option.none, Option.none⟩
            (generate_trait_value_data v) := by simpa using hb
        have hna := List.find?_eq_none.mp hfind a ha
        rw [hb', hbkeys.1, hbkeys.2]
        simpa using hna
    | some t =>
        rw [createTrait, getOrCreateTrait_some store identity key _ t hfind]
        simp only [Bool.false_eq_true, if_false]
        set d := generate_trait_value_data v with hd
        have hkeys := applyTraitValueData_keys t d
        rw [atMostOneTraitPer, saveTrait, List.pairwise_map]
        refine hinv.imp ?_
        intro a b hab hcon
        apply hab
        have ha := saveTrait_elem_keys a (applyTraitValueData t d)
        have hb := saveTrait_elem_keys b (applyTraitValueData t d)
        constructor
        · rw [← ha.1, ← hb.1]; exact hcon.1
        · rw [← ha.2, ← hb.2]; exact hcon.2
  · intro t hfind
    rw [createTrait, getOrCreateTrait_some store identity key _ t hfind]
    simp only [Bool.false_eq_true, if_false]
    have hkeys := applyTraitValueData_keys t (generate_trait_value_data v)
    constructor
    · rw [saveTrait, hkeys.1, hkeys.2]
    · rw [saveTrait, hkeys.1, hkeys.2, List.length_map]

/-- C8 witness: upserting key "k" for the identity "u", which already holds
a "k" trait, rewrites that trait in place and keeps the store at one row. -/
theorem C8_witness :
    atMostOneTraitPer
      (createTrait [⟨"u", "k", STRING, Option.none, Option.some "old", Option.none⟩]
        "u" "k" (PyVal.str "new")).1 ∧
    (createTrait [⟨"u", "k", STRING, Option.none, Option.some "old", Option.none⟩]
        "u" "k" (PyVal.str "new")).1 =
      [⟨"u", "k", STRING, Option.none, Option.some "new", Option.none⟩] ∧
    (createTrait [⟨"u", "k", STRING, Option.none, Option.some "old", Option.none⟩]
        "u" "k" (PyVal.str "new")).1.length = 1 := by
  have h := C8_trait_upsert_unique
    [⟨"u", "k", STRING, Option.none, Option.some "old", Option.none⟩] "u" "k" (PyVal.str "new")
  have h2 := h.2 ⟨"u", "k", STRING, Option.none, Option.some "old", Option.none⟩ (by rfl)
  refine ⟨h.1 (by decide), ?_, h2.2⟩
  rw [h2.1]
  rfl

/-- C5: a bulk request consisting of one null-valued item for (identifier,
key) succeeds with an empty response — no Trait is returned — and the
resulting store is the old one minus every trait with that key for that
identity; in particular, when no such trait exists the request is a
successful no-op, not an error. -/
theorem C5_null_upsert_deletes (store : List TraitRow) (identifier key : String) :
    ((bulkCreate store [⟨Option.some identifier, Option.some key, Option.none⟩]).1 =
        .ok [] ∧
      ∀ t, t ∈ (bulkCreate store [⟨Option.some identifier, Option.some key,
          Option.none⟩]).2 ↔
        t ∈ store ∧ ¬(t.identity = identifier ∧ t.trait_key = key)) ∧
    ((∀ t ∈ store, ¬(t.identity = identifier ∧ t.trait_key = key)) →
      bulkCreate store [⟨Option.some identifier, Option.some key, Option.none⟩] =
        (.ok [], store)) := by
  have hrun : bulkCreate store [⟨Option.some identifier, Option.some key, Option.none⟩] =
      (.ok [], bulkApplyDeletes store
        [⟨Option.some identifier, Option.some key, Option.none⟩]) := rfl
  constructor
  · refine ⟨by rw [hrun], fun t => ?_⟩
    rw [hrun]
    simp only [bulkApplyDeletes, deleteMatches]
    simp [List.mem_filter]
    intro _
    constructor
    · intro h1 hc hk
      cases h1 with
      | inl h => exact h hk.symm
      | inr h => exact h hc.symm
    · intro h1
      by_cases hk : key = t.trait_key
      · right
        intro hi
        exact h1 hi.symm hk.symm
      · left
        exact hk
  · intro hnone
    rw [hrun]
    have heq : bulkApplyDeletes store [⟨Option.some identifier, Option.some key, Option.none⟩]
        = store := by
      rw [bulkApplyDeletes]
      apply List.filter_eq_self.mpr
      intro t ht
      simp only [deleteMatches]
      simp
      by_cases hk : key = t.trait_key
      · right
        intro hi
        exact hnone t ht ⟨hi.symm, hk.symm⟩
      · left
        exact hk
    rw [heq]

/-- C5 witness: deleting the key "other", which the identity "u" does not
hold, is a successful no-op; the stored "k" trait is untouched. -/
theorem C5_witness :
    bulkCreate [⟨"u", "k", STRING, Option.none, Option.some "x", Option.none⟩]
        [⟨Option.some "u", Option.some "other", Option.none⟩] =
      (.ok [], [⟨"u", "k", STRING, Option.none, Option.some "x", Option.none⟩]) :=
  (C5_null_upsert_deletes [⟨"u", "k", STRING, Option.none, Option.some "x", Option.none⟩]
    "u" "other").2 (by decide)

/-- C4 counterexample: in the two-item batch below the first item is valid
and would be applied on its own, the second is malformed (no trait key);
the batch returns 400 with nothing applied, so the malformed item did
prevent the application of the valid one. -/
theorem C4_counterexample :
    validTraitItem ⟨Option.some "a", Option.some "k", Option.some (PyVal.str "v")⟩ = true ∧
    validTraitItem ⟨Option.some "a", Option.none, Option.some (PyVal.str "w")⟩ = false ∧
    (bulkCreate [] [⟨Option.some "a", Option.some "k", Option.some (PyVal.str "v")⟩]).2 =
      [⟨"a", "k", STRING, Option.none, Option.some "v", Option.none⟩] ∧
    bulkCreate [] [⟨Option.some "a", Option.some "k", Option.some (PyVal.str "v")⟩,
        ⟨Option.some "a", Option.none, Option.some (PyVal.str "w")⟩] =
      (.badRequest, []) := by
  decide

/-- C4 (amended): the bulk endpoint validates the non-delete items as one
batch — if any of them is invalid the whole request is rejected with a 400
and no upsert is applied; only the null-valued deletions, which run before
validation, take effect. -/
theorem C4_batch_validation_all_or_nothing (store : List TraitRow)
    (items : List RawTraitItem)
    (h : ∃ it ∈ items, it.trait_value.isSome = true ∧ validTraitItem it = false) :
    bulkCreate store items = (.badRequest, bulkApplyDeletes store items) := by
  obtain ⟨it, hmem, hsome, hinvalid⟩ := h
  have hup : it ∈ items.filter fun it => it.trait_value.isSome :=
    List.mem_filter.mpr ⟨hmem, hsome⟩
  have hall : ((items.filter fun it => it.trait_value.isSome).all validTraitItem) = false := by
    by_contra hcon
    have := List.all_eq_true.mp (eq_true_of_ne_false hcon) it hup
    rw [hinvalid] at this
    exact Bool.false_ne_true this
  rw [bulkCreate]
  simp only [hall, Bool.false_eq_true, if_false]

/-- C4 witness for the amended statement: the counterexample batch takes
the rejection path, leaving only the (empty) deletions applied. -/
theorem C4_witness :
    bulkCreate [] [⟨Option.some "a", Option.some "k", Option.some (PyVal.str "v")⟩,
        ⟨Option.some "a", Option.none, Option.some (PyVal.str "w")⟩] =
      (.badRequest,
        bulkApplyDeletes []
          [⟨Option.some "a", Option.some "k", Option.some (PyVal.str "v")⟩,
           ⟨Option.some "a", Option.none, Option.some (PyVal.str "w")⟩]) :=
  C4_batch_validation_all_or_nothing [] _
    ⟨⟨Option.some "a", Option.none, Option.some (PyVal.str "w")⟩, by decide, by decide,
      by decide⟩

/-- A NULL constrained column is distinct from everything under SQL
comparison, so the unique constraint never sees a conflict for a
NULL-identity row, whatever the table holds. -/
lemma featureStateExists_null_identity (db : FeatureDb) (fid : Nat) (env : Option Nat) :
    featureStateExists db fid env Option.none = false := by
  apply List.any_eq_false.mpr
  intro fs hfs
  have hid : sqlEq fs.identity Option.none = false := by
    cases fs.identity <;> rfl
  simp [hid]

/-- A feature-state insert with a fresh id and an unused scope triple
succeeds and appends exactly one state row and one STRING-typed value row
holding the feature's initial value. -/
lemma featureStateCreate_fresh (db : FeatureDb) (f : FeatureRow) (env : Nat)
    (hInv : DbIdsFresh db)
    (hnot : featureStateExists db f.id (Option.some env) Option.none = false) :
    featureStateCreate db f (Option.some env) Option.none false =
      .ok ⟨db.feature_states ++
            [⟨db.next_fs_id, f.id, Option.some env, Option.none, false, FLAG⟩],
           db.feature_state_values ++
            [⟨db.next_fs_id, Option.some STRING, Option.none, Option.none, f.initial_value⟩],
           db.next_fs_id + 1⟩ := by
  have hany : (db.feature_state_values.any fun v => v.feature_state == db.next_fs_id)
      = false := by
    apply List.any_eq_false.mpr
    intro v hv
    have := hInv.2 v hv
    simp only [beq_iff_eq]
    omega
  rw [featureStateCreate, hnot]
  simp only [Bool.false_eq_true, if_false, featureStateSaveHook, hany]

/-- The closed form of `Feature.save` on a database whose id counter is
fresh: every insert has a NULL identity, so the loop always succeeds —
whatever states the table already holds — appending one state row and one
value row per environment, with consecutive ids. -/
lemma featureSave_fresh (f : FeatureRow) (envs : List Nat) (db : FeatureDb)
    (hInv : DbIdsFresh db) :
    featureSave f envs db =
      .ok ⟨db.feature_states ++ createdStates f.id envs db.next_fs_id,
           db.feature_state_values ++ createdValues f.initial_value envs db.next_fs_id,
           db.next_fs_id + envs.length⟩ := by
  induction envs generalizing db with
  | nil =>
      simp only [featureSave, createdStates, createdValues, List.append_nil,
        List.length_nil, Nat.add_zero]
  | cons e rest ih =>
      rw [featureSave, featureStateCreate_fresh db f e hInv
        (featureStateExists_null_identity db f.id (Option.some e))]
      set db1 : FeatureDb :=
        ⟨db.feature_states ++ [⟨db.next_fs_id, f.id, Option.some e, Option.none, false, FLAG⟩],
         db.feature_state_values ++
           [⟨db.next_fs_id, Option.some STRING, Option.none, Option.none, f.initial_value⟩],
         db.next_fs_id + 1⟩ with hdb1
      have hInv1 : DbIdsFresh db1 := by
        constructor
        · intro fs hfs
          rw [hdb1] at hfs ⊢
          simp only [List.mem_append, List.mem_singleton] at hfs
          cases hfs with
          | inl h => have := hInv.1 fs h; simp; omega
          | inr h => simp [h]
        · intro v hv
          rw [hdb1] at hv ⊢
          simp only [List.mem_append, List.mem_singleton] at hv
          cases hv with
          | inl h => have := hInv.2 v h; simp; omega
          | inr h => simp [h]
      show featureSave f rest db1 = _
      rw [ih db1 hInv1]
      rw [hdb1]
      simp only [createdStates, createdValues, List.append_assoc, List.singleton_append,
        List.length_cons]
      have harith : db.next_fs_id + 1 + rest.length = db.next_fs_id + (rest.length + 1) := by
        omega
      rw [harith]

/-- Every state row created by `Feature.save` gets an id at or above the
starting counter. -/
lemma createdStates_ids_ge (fid : Nat) :
    ∀ (envs : List Nat) (s : Nat), ∀ fs ∈ createdStates fid envs s, s ≤ fs.id := by
  intro envs
  induction envs with
  | nil => intro s fs hfs; simp [createdStates] at hfs
  | cons e rest ih =>
      intro s fs hfs
      simp only [createdStates, List.mem_cons] at hfs
      cases hfs with
      | inl h => simp [h]
      | inr h => have := ih (s + 1) fs h; omega

/-- Every value row created by `Feature.save` references an id at or above
the starting counter. -/
lemma createdValues_ids_ge (init : Option String) :
    ∀ (envs : List Nat) (s : Nat), ∀ v ∈ createdValues init envs s, s ≤ v.feature_state := by
  intro envs
  induction envs with
  | nil => intro s v hv; simp [createdValues] at hv
  | cons e rest ih =>
      intro s v hv
      simp only [createdValues, List.mem_cons] at hv
      cases hv with
      | inl h => simp [h]
      | inr h => have := ih (s + 1) v h; omega

/-- Every state row created by `Feature.save` gets an id below the counter
left behind. -/
lemma createdStates_ids_lt (fid : Nat) :
    ∀ (envs : List Nat) (s : Nat), ∀ fs ∈ createdStates fid envs s,
      fs.id < s + envs.length := by
  intro envs
  induction envs with
  | nil => intro s fs hfs; simp [createdStates] at hfs
  | cons e rest ih =>
      intro s fs hfs
      simp only [createdStates, List.mem_cons] at hfs
      cases hfs with
      | inl h => simp [h, List.length_cons]
      | inr h => have := ih (s + 1) fs h; simp only [List.length_cons]; omega

/-- Every value row created by `Feature.save` references an id below the
counter left behind. -/
lemma createdValues_ids_lt (init : Option String) :
    ∀ (envs : List Nat) (s : Nat), ∀ v ∈ createdValues init envs s,
      v.feature_state < s + envs.length := by
  intro envs
  induction envs with
  | nil => intro s v hv; simp [createdValues] at hv
  | cons e rest ih =>
      intro s v hv
      simp only [createdValues, List.mem_cons] at hv
      cases hv with
      | inl h => simp [h, List.length_cons]
      | inr h => have := ih (s + 1) v h; simp only [List.length_cons]; omega

/-- Id freshness survives a `Feature.save`: the output of its closed form
is again a database whose stored ids lie below the advanced counter. -/
lemma dbIdsFresh_after (f : FeatureRow) (envs : List Nat) (db : FeatureDb)
    (hInv : DbIdsFresh db) :
    DbIdsFresh ⟨db.feature_states ++ createdStates f.id envs db.next_fs_id,
                db.feature_state_values ++ createdValues f.initial_value envs db.next_fs_id,
                db.next_fs_id + envs.length⟩ := by
  constructor
  · intro fs hfs
    simp only [List.mem_append] at hfs
    show fs.id < db.next_fs_id + envs.length
    cases hfs with
    | inl h => have := hInv.1 fs h; omega
    | inr h => exact createdStates_ids_lt f.id envs db.next_fs_id fs h
  · intro v hv
    simp only [List.mem_append] at hv
    show v.feature_state < db.next_fs_id + envs.length
    cases hv with
    | inl h => have := hInv.2 v h; omega
    | inr h => exact createdValues_ids_lt f.initial_value envs db.next_fs_id v h

/-- No created state row is scoped to an environment outside the processed
list. -/
lemma createdStates_filter_not_mem (fid : Nat) (env : Nat) :
    ∀ (envs : List Nat) (s : Nat), env ∉ envs →
      (createdStates fid envs s).filter (fun fs => fs.feature == fid &&
        fs.environment == Option.some env && fs.identity == Option.none) = [] := by
  intro envs
  induction envs with
  | nil => intro s _; simp [createdStates]
  | cons e rest ih =>
      intro s henv
      have he : ¬(e = env) := fun hcon => henv (by simp [hcon])
      rw [createdStates, List.filter_cons_of_neg (by simp [he])]
      exact ih (s + 1) (fun h => henv (by simp [h]))

/-- For each target environment, `Feature.save`'s created rows contain
exactly one state row scoped to it — disabled, identity-free — and exactly
one value row for that state's id, STRING-typed with the feature's initial
value. -/
lemma created_filter_pair (fid : Nat) (init : Option String) :
    ∀ (envs : List Nat) (s : Nat), envs.Nodup → ∀ env ∈ envs,
      ∃ i, (createdStates fid envs s).filter (fun fs => fs.feature == fid &&
          fs.environment == Option.some env && fs.identity == Option.none) =
            [⟨s + i, fid, Option.some env, Option.none, false, FLAG⟩] ∧
        (createdValues init envs s).filter (fun v => v.feature_state == s + i) =
          [⟨s + i, Option.some STRING, Option.none, Option.none, init⟩] := by
  intro envs
  induction envs with
  | nil => intro s _ env henv; simp at henv
  | cons e rest ih =>
      intro s hnodup env henv
      rcases List.mem_cons.mp henv with heq | hmem
      · refine ⟨0, ?_, ?_⟩
        · rw [createdStates, List.filter_cons_of_pos (by simp [heq])]
          have htail := createdStates_filter_not_mem fid env rest (s + 1)
            (heq ▸ (List.nodup_cons.mp hnodup).1)
          rw [htail, heq, Nat.add_zero]
        · rw [createdValues, List.filter_cons_of_pos (by simp)]
          have htail : (createdValues init rest (s + 1)).filter
              (fun v => v.feature_state == s + 0) = [] := by
            apply List.filter_eq_nil_iff.mpr
            intro v hv
            have := createdValues_ids_ge init rest (s + 1) v hv
            simp only [beq_iff_eq, Nat.add_zero]
            omega
          rw [htail, Nat.add_zero]
      · obtain ⟨i, hst, hval⟩ := ih (s + 1) (List.nodup_cons.mp hnodup).2 env hmem
        have harith : s + 1 + i = s + (i + 1) := by omega
        refine ⟨i + 1, ?_, ?_⟩
        · have he : ¬(e = env) := fun hcon =>
            (List.nodup_cons.mp hnodup).1 (hcon ▸ hmem)
          rw [createdStates, List.filter_cons_of_neg (by simp [he])]
          rw [harith] at hst
          exact hst
        · rw [createdValues, List.filter_cons_of_neg (by simp only [beq_iff_eq]; omega)]
          rw [harith] at hval
          exact hval

/-- A list whose filtrate is the singleton `[a]` finds `a` as the first
match. -/
lemma find?_of_filter_singleton {α : Type} (p : α → Bool) :
    ∀ (l : List α) (a : α), l.filter p = [a] → l.find? p = Option.some a := by
  intro l
  induction l with
  | nil => intro a h; simp at h
  | cons x xs ih =>
      intro a h
      by_cases hp : p x = true
      · rw [List.filter_cons_of_pos hp] at h
        rw [List.find?_cons_of_pos _ hp]
        simp only [List.cons.injEq] at h
        rw [h.1]
      · rw [List.filter_cons_of_neg (by simpa using hp)] at h
        rw [List.find?_cons_of_neg _ (by simpa using hp)]
        exact ih a h

/-- C1 counterexample: for a feature whose (spec-side) default-enabled flag
is true, `Feature.save` on a project with one environment still creates the
environment's feature state with enabled = false — the source model has no
default-enabled column and `Feature.save` hardcodes `enabled=False` — so
"enabled equals the feature's default-enabled flag" fails. -/
theorem C1_counterexample :
    ((⟨⟨1, 1, "test", Option.some "init"⟩, true⟩ : SpecFeature).default_enabled = true) ∧
    featureSave (⟨⟨1, 1, "test", Option.some "init"⟩, true⟩ : SpecFeature).row [7]
        ⟨[], [], 0⟩ =
      .ok ⟨[⟨0, 1, Option.some 7, Option.none, false, FLAG⟩],
           [⟨0, Option.some STRING, Option.none, Option.none, Option.some "init"⟩], 1⟩ ∧
    (⟨0, 1, Option.some 7, Option.none, false, FLAG⟩ : FeatureStateRow).enabled ≠
      (⟨⟨1, 1, "test", Option.some "init"⟩, true⟩ : SpecFeature).default_enabled :=
  ⟨rfl, rfl, by decide⟩

/-- C1 (amended): creating a Feature (saving it against a database that
holds no state for it yet) succeeds and creates exactly one
environment-scoped FeatureState (identity = null) per environment of its
project; each created state has enabled = false — not a default-enabled
flag, which the source Feature model lacks — and its value, read through
`get_feature_state_value`, equals the feature's initial value (stored
STRING-typed in `string_value`). -/
theorem C1_feature_creation (f : FeatureRow) (envs : List Nat) (db : FeatureDb)
    (hInv : DbIdsFresh db)
    (hfresh : ∀ fs ∈ db.feature_states, fs.feature ≠ f.id)
    (hnodup : envs.Nodup) :
    ∃ db', featureSave f envs db = .ok db' ∧
      ∀ env ∈ envs, ∃ fs : FeatureStateRow,
        db'.feature_states.filter (fun s => s.feature == f.id &&
            s.environment == Option.some env && s.identity == Option.none) = [fs] ∧
        fs.enabled = false ∧
        db'.feature_state_values.filter (fun v => v.feature_state == fs.id) =
          [⟨fs.id, Option.some STRING, Option.none, Option.none, f.initial_value⟩] ∧
        get_feature_state_value db' fs = f.initial_value.map PyVal.str := by
  refine ⟨_, featureSave_fresh f envs db hInv, ?_⟩
  intro env henv
  obtain ⟨i, hst, hval⟩ := created_filter_pair f.id f.initial_value envs db.next_fs_id
    hnodup env henv
  refine ⟨⟨db.next_fs_id + i, f.id, Option.some env, Option.none, false, FLAG⟩, ?_, rfl,
    ?_, ?_⟩
  · show (db.feature_states ++ createdStates f.id envs db.next_fs_id).filter _ = _
    rw [List.filter_append, hst]
    have hold : db.feature_states.filter (fun s => s.feature == f.id &&
        s.environment == Option.some env && s.identity == Option.none) = [] := by
      apply List.filter_eq_nil_iff.mpr
      intro fs hfs
      have := hfresh fs hfs
      simp [this]
    rw [hold, List.nil_append]
  · show (db.feature_state_values ++ createdValues f.initial_value envs db.next_fs_id).filter
        _ = _
    rw [List.filter_append, hval]
    have hold : db.feature_state_values.filter
        (fun v => v.feature_state == db.next_fs_id + i) = [] := by
      apply List.filter_eq_nil_iff.mpr
      intro v hv
      have := hInv.2 v hv
      simp only [beq_iff_eq]
      omega
    rw [hold, List.nil_append]
  · rw [get_feature_state_value]
    have hfilter : (db.feature_state_values ++
        createdValues f.initial_value envs db.next_fs_id).filter
          (fun v => v.feature_state == db.next_fs_id + i) =
        [⟨db.next_fs_id + i, Option.some STRING, Option.none, Option.none,
          f.initial_value⟩] := by
      rw [List.filter_append, hval]
      have hold : db.feature_state_values.filter
          (fun v => v.feature_state == db.next_fs_id + i) = [] := by
        apply List.filter_eq_nil_iff.mpr
        intro v hv
        have := hInv.2 v hv
        simp only [beq_iff_eq]
        omega
      rw [hold, List.nil_append]
    rw [find?_of_filter_singleton _ _ _ hfilter]
    rfl

/-- C1 witness: on an empty database, saving a feature over the two
environments 7 and 8 creates the per-environment disabled states carrying
the initial value. -/
theorem C1_witness :
    ∃ db', featureSave ⟨1, 1, "f", Option.some "init"⟩ [7, 8] ⟨[], [], 0⟩ = .ok db' ∧
      ∀ env ∈ [7, 8], ∃ fs : FeatureStateRow,
        db'.feature_states.filter (fun s => s.feature == 1 &&
            s.environment == Option.some env && s.identity == Option.none) = [fs] ∧
        fs.enabled = false ∧
        db'.feature_state_values.filter (fun v => v.feature_state == fs.id) =
          [⟨fs.id, Option.some STRING, Option.none, Option.none, Option.some "init"⟩] ∧
        get_feature_state_value db' fs = (Option.some "init").map PyVal.str :=
  C1_feature_creation ⟨1, 1, "f", Option.some "init"⟩ [7, 8] ⟨[], [], 0⟩ (by decide)
    (by decide) (by decide)

/-- C9 counterexample: a second `Feature.save` does not violate the
uniqueness constraint — the inserted rows have a NULL identity, which SQL
unique constraints treat as distinct from everything — so it succeeds
(`.ok`, never the integrity error) and silently creates a second
environment-scoped FeatureState and value row, leaving two
(feature 1, environment 7, identity NULL) states in the table. -/
theorem C9_counterexample :
    featureSave ⟨1, 1, "f", Option.some "init"⟩ [7] ⟨[], [], 0⟩ =
      .ok ⟨[⟨0, 1, Option.some 7, Option.none, false, FLAG⟩],
           [⟨0, Option.some STRING, Option.none, Option.none, Option.some "init"⟩], 1⟩ ∧
    featureSave ⟨1, 1, "f", Option.some "init"⟩ [7]
        ⟨[⟨0, 1, Option.some 7, Option.none, false, FLAG⟩],
         [⟨0, Option.some STRING, Option.none, Option.none, Option.some "init"⟩], 1⟩ =
      .ok ⟨[⟨0, 1, Option.some 7, Option.none, false, FLAG⟩,
            ⟨1, 1, Option.some 7, Option.none, false, FLAG⟩],
           [⟨0, Option.some STRING, Option.none, Option.none, Option.some "init"⟩,
            ⟨1, Option.some STRING, Option.none, Option.none, Option.some "init"⟩], 2⟩ ∧
    (([⟨0, 1, Option.some 7, Option.none, false, FLAG⟩,
       ⟨1, 1, Option.some 7, Option.none, false, FLAG⟩] : List FeatureStateRow).filter
        (fun s => s.feature == 1 && s.environment == Option.some 7 &&
          s.identity == Option.none)).length = 2 :=
  ⟨rfl, rfl, by decide⟩

/-- C9 (amended): `Feature.save` runs its state-creation loop
unconditionally on every call — after a first successful save has created
the per-environment states, saving the same feature again inserts a second
(feature, environment, identity = NULL) FeatureState per environment; the
inserts succeed because SQL unique constraints treat the NULL identity as
distinct, so the second save returns successfully with the
environment-default states silently duplicated (two env-scoped rows per
environment) instead of leaving them unchanged. -/
theorem C9_second_save_duplicates (f : FeatureRow) (envs : List Nat) (db : FeatureDb)
    (hInv : DbIdsFresh db)
    (hfresh : ∀ fs ∈ db.feature_states, fs.feature ≠ f.id)
    (hnodup : envs.Nodup) :
    ∃ db' db'', featureSave f envs db = .ok db' ∧ featureSave f envs db' = .ok db'' ∧
      ∀ env ∈ envs,
        (db''.feature_states.filter (fun s => s.feature == f.id &&
            s.environment == Option.some env && s.identity == Option.none)).length = 2 := by
  refine ⟨_, _, featureSave_fresh f envs db hInv,
    featureSave_fresh f envs _ (dbIdsFresh_after f envs db hInv), ?_⟩
  intro env henv
  obtain ⟨i1, hst1, -⟩ := created_filter_pair f.id f.initial_value envs db.next_fs_id
    hnodup env henv
  obtain ⟨i2, hst2, -⟩ := created_filter_pair f.id f.initial_value envs
    (db.next_fs_id + envs.length) hnodup env henv
  have hold : db.feature_states.filter (fun s => s.feature == f.id &&
      s.environment == Option.some env && s.identity == Option.none) = [] := by
    apply List.filter_eq_nil_iff.mpr
    intro fs hfs
    have := hfresh fs hfs
    simp [this]
  show (((db.feature_states ++ createdStates f.id envs db.next_fs_id) ++
      createdStates f.id envs (db.next_fs_id + envs.length)).filter
        (fun s => s.feature == f.id && s.environment == Option.some env &&
          s.identity == Option.none)).length = 2
  rw [List.filter_append, List.filter_append, hold, hst1, hst2]
  rfl

/-- C9 witness: saving a fresh feature over environment 7 succeeds once,
succeeds again on the second save, and leaves two environment-scoped
states for that environment. -/
theorem C9_witness :
    ∃ db' db'', featureSave ⟨1, 1, "f", Option.some "init"⟩ [7] ⟨[], [], 0⟩ = .ok db' ∧
      featureSave ⟨1, 1, "f", Option.some "init"⟩ [7] db' = .ok db'' ∧
      ∀ env ∈ [7], (db''.feature_states.filter (fun s => s.feature == 1 &&
          s.environment == Option.some env && s.identity == Option.none)).length = 2 :=
  C9_second_save_duplicates ⟨1, 1, "f", Option.some "init"⟩ [7] ⟨[], [], 0⟩
    (by decide) (by decide) (by decide)

end Flagsmith
